import Mathlib

/-!
Verification development for the `web_scraper` repository (`src/scraper.py`).

The Python program is embedded shallowly: each method of the `Scraper`
class becomes a pure Lean function over an explicit state record
(`SState`), the SQLite record store becomes an association list keyed by
URL, the write queue becomes a list, the Selenium page fetcher becomes a
function `String → Option PageData`, and Python exceptions become an
explicit `Option PyErr` result component.  Execution is modelled
sequentially, i.e. the `max_threads = 1` schedule of the thread pools.
-/

namespace WebScraper

/-- Boolean test that `p` is a leading piece of `s`, mirroring Python's
`str.startswith`. -/
def strStartsWith (s p : String) : Bool :=
  p.data.isPrefixOf s.data

/-- Characters allowed inside a URL scheme after the first letter,
as accepted by `urllib.parse`. -/
def schemeChar (c : Char) : Bool :=
  c.isAlphanum || c == '+' || c == '-' || c == '.'

/-- Result of `urllib.parse.urlparse`, restricted to the three components
the scraper reads (scheme, netloc, path). -/
structure UrlParts where
  scheme : String
  netloc : String
  path : String
deriving DecidableEq, Repr

/-- Split a leading `scheme:` from a character list if the prefix before
the first colon is a valid scheme, as `urllib.parse` does. -/
def splitSchemeAux (l : List Char) : Option (List Char × List Char) :=
  let pre := l.takeWhile (fun c => c ≠ ':')
  if pre.length < l.length ∧ pre ≠ [] ∧ pre.all schemeChar ∧
      (pre.headD ' ').isAlpha then
    some (pre.map Char.toLower, l.drop (pre.length + 1))
  else
    none

/-- Model of `urllib.parse.urlparse` on the fragment the scraper uses:
extracts the scheme, the network location after `//`, and the remaining
path (queries and fragments are not split off, the scraper never reads
them). -/
def urlparse (s : String) : UrlParts :=
  let (sch, rest) :=
    match splitSchemeAux s.data with
    | some (sc, r) => (sc, r)
    | none => ([], s.data)
  if ['/', '/'].isPrefixOf rest then
    let r2 := rest.drop 2
    let net := r2.takeWhile (fun c => c ≠ '/' ∧ c ≠ '?' ∧ c ≠ '#')
    ⟨⟨sch⟩, ⟨net⟩, ⟨r2.drop net.length⟩⟩
  else
    ⟨⟨sch⟩, "", ⟨rest⟩⟩

/-- Directory part of a path: everything up to and including the last
slash (or `/` when the path has no slash), used by relative resolution. -/
def dirPart (p : String) : String :=
  let d := (p.data.reverse.dropWhile (fun c => c ≠ '/')).reverse
  if d = [] then "/" else ⟨d⟩

/-- Model of `urllib.parse.urljoin` on the cases the scraper exercises:
absolute references are returned unchanged, network-path references take
the base scheme, root-relative references take the base origin, and other
relative references are merged onto the base path's directory (dot
segments are not normalised; the crawl inputs considered contain none). -/
def urljoin (base url : String) : String :=
  if url = "" then base
  else
    let b := urlparse base
    if (urlparse url).scheme ≠ "" then url
    else if strStartsWith url ("//") then b.scheme ++ ":" ++ url
    else if strStartsWith url ("/") then b.scheme ++ "://" ++ b.netloc ++ url
    else b.scheme ++ "://" ++ b.netloc ++ dirPart b.path ++ url

/-- Hexadecimal digit character for a value below 16, lowercase as
emitted by `json.dumps`. -/
def hexDigit (n : Nat) : Char :=
  if n = 0 then '0' else if n = 1 then '1' else if n = 2 then '2'
  else if n = 3 then '3' else if n = 4 then '4' else if n = 5 then '5'
  else if n = 6 then '6' else if n = 7 then '7' else if n = 8 then '8'
  else if n = 9 then '9' else if n = 10 then 'a' else if n = 11 then 'b'
  else if n = 12 then 'c' else if n = 13 then 'd' else if n = 14 then 'e'
  else if n = 15 then 'f' else '0'

/-- Numeric value of a hexadecimal digit character, as accepted by
`json.loads` escape parsing. -/
def hexVal (c : Char) : Option Nat :=
  if c = '0' then some 0 else if c = '1' then some 1
  else if c = '2' then some 2 else if c = '3' then some 3
  else if c = '4' then some 4 else if c = '5' then some 5
  else if c = '6' then some 6 else if c = '7' then some 7
  else if c = '8' then some 8 else if c = '9' then some 9
  else if c = 'a' then some 10 else if c = 'b' then some 11
  else if c = 'c' then some 12 else if c = 'd' then some 13
  else if c = 'e' then some 14 else if c = 'f' then some 15
  else if c = 'A' then some 10 else if c = 'B' then some 11
  else if c = 'C' then some 12 else if c = 'D' then some 13
  else if c = 'E' then some 14 else if c = 'F' then some 15
  else none

/-- JSON escape of a single character inside a string literal, following
`json.dumps`: quote and backslash escaped, control characters escaped with
short escapes or `\u00XX`, and everything else emitted verbatim. -/
def escChar (c : Char) : List Char :=
  if c = '"' then ['\\', '"']
  else if c = '\\' then ['\\', '\\']
  else if c = Char.ofNat 8 then ['\\', 'b']
  else if c = Char.ofNat 9 then ['\\', 't']
  else if c = Char.ofNat 10 then ['\\', 'n']
  else if c = Char.ofNat 12 then ['\\', 'f']
  else if c = Char.ofNat 13 then ['\\', 'r']
  else if c.toNat < 32 then
    ['\\', 'u', '0', '0', hexDigit (c.toNat / 16), hexDigit (c.toNat % 16)]
  else [c]

/-- JSON escape of a whole string body. -/
def escString (s : List Char) : List Char :=
  (s.map escChar).flatten

/-- JSON string literal with its surrounding quotes. -/
def encStr (s : List Char) : List Char :=
  '"' :: (escString s ++ ['"'])

/-- Comma-and-space separated encoding of the array elements, the default
item separator of `json.dumps`. -/
def encItems : List (List Char) → List Char
  | [] => []
  | [s] => encStr s
  | s :: rest => encStr s ++ ',' :: ' ' :: encItems rest

/-- Model of `json.dumps` applied to a list of strings: a JSON array
such as `["a", "b"]`. -/
def jsonDumps (l : List String) : String :=
  ⟨'[' :: (encItems (l.map String.data) ++ [']'])⟩

/-- Inverse of a single short escape character, as in `json.loads`. -/
def unescChar (c : Char) : Option Char :=
  if c = '"' then some '"'
  else if c = '\\' then some '\\'
  else if c = '/' then some '/'
  else if c = 'b' then some (Char.ofNat 8)
  else if c = 'f' then some (Char.ofNat 12)
  else if c = 'n' then some (Char.ofNat 10)
  else if c = 'r' then some (Char.ofNat 13)
  else if c = 't' then some (Char.ofNat 9)
  else none

/-- Parse the body of a JSON string literal up to its closing quote,
returning the decoded characters and the unconsumed input. -/
def parseStrBody : List Char → Option (List Char × List Char)
  | [] => none
  | c :: rest =>
    if c = '"' then some ([], rest)
    else if c = '\\' then
      match rest with
      | [] => none
      | e :: rest2 =>
        if e = 'u' then
          match rest2 with
          | a :: b :: c2 :: d :: rest3 =>
            match hexVal a, hexVal b, hexVal c2, hexVal d with
            | some x, some y, some z, some w =>
              match parseStrBody rest3 with
              | some (s, r) =>
                some (Char.ofNat (((x * 16 + y) * 16 + z) * 16 + w) :: s, r)
              | none => none
            | _, _, _, _ => none
          | _ => none
        else
          match unescChar e with
          | some u =>
            match parseStrBody rest2 with
            | some (s, r) => some (u :: s, r)
            | none => none
          | none => none
    else
      match parseStrBody rest with
      | some (s, r) => some (c :: s, r)
      | none => none

/-- Parse a complete JSON string literal including its opening quote. -/
def parseStr : List Char → Option (List Char × List Char)
  | [] => none
  | c :: rest => if c = '"' then parseStrBody rest else none

/-- JSON whitespace characters. -/
def isWsChar (c : Char) : Bool :=
  c == ' ' || c == Char.ofNat 9 || c == Char.ofNat 10 || c == Char.ofNat 13

/-- Drop JSON whitespace. -/
def skipWs (l : List Char) : List Char :=
  l.dropWhile isWsChar

/-- Parse one or more comma-separated JSON string elements followed by the
closing bracket, with fuel bounding the number of elements. -/
def parseElems : Nat → List Char → Option (List String × List Char)
  | 0, _ => none
  | fuel + 1, l =>
    match parseStr l with
    | none => none
    | some (s, r) =>
      match skipWs r with
      | [] => none
      | c :: rest =>
        if c = ',' then
          match parseElems fuel (skipWs rest) with
          | some (items, rem) => some (⟨s⟩ :: items, rem)
          | none => none
        else if c = ']' then some ([⟨s⟩], rest)
        else none

/-- Model of `json.loads` applied to a JSON array of strings. -/
def jsonLoads (s : String) : Option (List String) :=
  match skipWs s.data with
  | [] => none
  | c :: rest =>
    if c = '[' then
      match skipWs rest with
      | [] => none
      | c2 :: rest2 =>
        if c2 = ']' then
          if skipWs rest2 = [] then some [] else none
        else
          match parseElems (s.data.length + 1) (c2 :: rest2) with
          | some (items, rem) => if skipWs rem = [] then some items else none
          | none => none
    else none

theorem charOfNat_toNat (c : Char) : Char.ofNat c.toNat = c := by
  have hv : c.toNat.isValidChar := by
    have := c.valid
    unfold UInt32.isValidChar at this
    exact this
  unfold Char.ofNat
  rw [dif_pos hv]
  unfold Char.ofNatAux
  apply Char.ext
  apply UInt32.ext
  simp [Char.toNat, UInt32.toNat]

theorem hexVal_hexDigit : ∀ n, n < 16 → hexVal (hexDigit n) = some n := by decide

theorem escString_cons (c : Char) (cs : List Char) :
    escString (c :: cs) = escChar c ++ escString cs := by
  simp [escString]

theorem parseStrBody_esc (s : List Char) : ∀ tail : List Char,
    parseStrBody (escString s ++ '"' :: tail) = some (s, tail) := by
  induction s with
  | nil =>
    intro tail
    rw [show escString [] = [] from rfl, List.nil_append, parseStrBody.eq_def]
    simp
  | cons c cs ih =>
    intro tail
    rw [escString_cons, List.append_assoc]
    by_cases h1 : c = '"'
    · subst h1
      rw [show escChar ('"') = ['\\', '"'] from rfl]
      simp only [List.cons_append, List.nil_append]
      rw [parseStrBody.eq_def]
      simp [unescChar, ih]
    by_cases h2 : c = '\\'
    · subst h2
      rw [show escChar ('\\') = ['\\', '\\'] from rfl]
      simp only [List.cons_append, List.nil_append]
      rw [parseStrBody.eq_def]
      simp [unescChar, ih]
    by_cases h3 : c = Char.ofNat 8
    · subst h3
      rw [show escChar (Char.ofNat 8) = ['\\', 'b'] from rfl]
      simp only [List.cons_append, List.nil_append]
      rw [parseStrBody.eq_def]
      simp [unescChar, ih]
    by_cases h4 : c = Char.ofNat 9
    · subst h4
      rw [show escChar (Char.ofNat 9) = ['\\', 't'] from rfl]
      simp only [List.cons_append, List.nil_append]
      rw [parseStrBody.eq_def]
      simp [unescChar, ih]
    by_cases h5 : c = Char.ofNat 10
    · subst h5
      rw [show escChar (Char.ofNat 10) = ['\\', 'n'] from rfl]
      simp only [List.cons_append, List.nil_append]
      rw [parseStrBody.eq_def]
      simp [unescChar, ih]
    by_cases h6 : c = Char.ofNat 12
    · subst h6
      rw [show escChar (Char.ofNat 12) = ['\\', 'f'] from rfl]
      simp only [List.cons_append, List.nil_append]
      rw [parseStrBody.eq_def]
      simp [unescChar, ih]
    by_cases h7 : c = Char.ofNat 13
    · subst h7
      rw [show escChar (Char.ofNat 13) = ['\\', 'r'] from rfl]
      simp only [List.cons_append, List.nil_append]
      rw [parseStrBody.eq_def]
      simp [unescChar, ih]
    by_cases h8 : c.toNat < 32
    · rw [escChar, if_neg h1, if_neg h2, if_neg h3, if_neg h4, if_neg h5,
        if_neg h6, if_neg h7, if_pos h8]
      simp only [List.cons_append, List.nil_append]
      rw [parseStrBody.eq_def]
      simp [show hexVal ('0') = some 0 from rfl,
        hexVal_hexDigit _ (show c.toNat / 16 < 16 by omega),
        hexVal_hexDigit _ (show c.toNat % 16 < 16 by omega), ih]
      rw [show c.toNat / 16 * 16 + c.toNat % 16 = c.toNat by omega,
        charOfNat_toNat]
    · rw [escChar, if_neg h1, if_neg h2, if_neg h3, if_neg h4, if_neg h5,
        if_neg h6, if_neg h7, if_neg h8]
      simp only [List.cons_append, List.nil_append]
      rw [parseStrBody.eq_def]
      simp [h1, h2, ih]

theorem parseStr_enc (s tail : List Char) :
    parseStr (encStr s ++ tail) = some (s, tail) := by
  rw [encStr]
  simp only [List.cons_append, List.append_assoc, List.nil_append]
  exact parseStrBody_esc s tail

theorem skipWs_notWs (c : Char) (l : List Char) (h : isWsChar c = false) :
    skipWs (c :: l) = c :: l := by
  rw [skipWs, List.dropWhile_cons, h]
  simp

theorem skipWs_space (l : List Char) : skipWs (' ' :: l) = skipWs l := by
  rw [skipWs, List.dropWhile_cons, show isWsChar (' ') = true from rfl]
  simp
  rfl

theorem encItems_cons_head (s : List Char) (r : List (List Char)) :
    ∃ t, encItems (s :: r) = '"' :: t := by
  cases r with
  | nil => exact ⟨escString s ++ ['"'], rfl⟩
  | cons s2 r2 =>
    exact ⟨(escString s ++ ['"']) ++ ',' :: ' ' :: encItems (s2 :: r2), by
      rw [show encItems (s :: s2 :: r2)
          = encStr s ++ ',' :: ' ' :: encItems (s2 :: r2) from rfl, encStr]
      simp⟩

theorem parseElems_enc : ∀ (items : List (List Char)), items ≠ [] →
    ∀ (fuel : Nat), items.length ≤ fuel → ∀ tail : List Char,
    parseElems fuel (encItems items ++ ']' :: tail)
      = some (items.map (fun s => (⟨s⟩ : String)), tail) := by
  intro items
  induction items with
  | nil => intro h; exact absurd rfl h
  | cons s rest ih =>
    intro _ fuel hlen tail
    match fuel, hlen with
    | fuel + 1, hlen =>
      cases rest with
      | nil =>
        rw [show encItems [s] = encStr s from rfl]
        simp only [parseElems, parseStr_enc, skipWs_notWs (']') tail rfl]
        simp
      | cons s2 rest2 =>
        rw [show encItems (s :: s2 :: rest2)
            = encStr s ++ ',' :: ' ' :: encItems (s2 :: rest2) from rfl]
        rw [List.append_assoc]
        obtain ⟨t, ht⟩ := encItems_cons_head s2 rest2
        have hihs : parseElems fuel (encItems (s2 :: rest2) ++ ']' :: tail)
            = some ((s2 :: rest2).map (fun s => (⟨s⟩ : String)), tail) :=
          ih (by simp) fuel (by simpa using Nat.le_of_succ_le_succ hlen) tail
        have hskip : skipWs (' ' :: (encItems (s2 :: rest2) ++ ']' :: tail))
            = encItems (s2 :: rest2) ++ ']' :: tail := by
          rw [skipWs_space, ht, List.cons_append, skipWs_notWs ('"') _ rfl]
        simp only [List.cons_append, parseElems, parseStr_enc,
          skipWs_notWs (',') _ rfl, if_pos rfl, hskip, hihs]
        simp

theorem encStr_len (s : List Char) : 2 ≤ (encStr s).length := by
  rw [encStr]
  simp

theorem encItems_len : ∀ (items : List (List Char)), items ≠ [] →
    items.length ≤ (encItems items).length := by
  intro items
  induction items with
  | nil => intro h; exact absurd rfl h
  | cons s rest ih =>
    intro _
    cases rest with
    | nil =>
      rw [show encItems [s] = encStr s from rfl]
      have := encStr_len s
      simp
      omega
    | cons s2 rest2 =>
      rw [show encItems (s :: s2 :: rest2)
          = encStr s ++ ',' :: ' ' :: encItems (s2 :: rest2) from rfl]
      have h1 := encStr_len s
      have h2 := ih (by simp)
      simp at *
      omega

theorem stringMk_data (s : String) : String.mk s.data = s := rfl

theorem jsonLoads_jsonDumps (l : List String) :
    jsonLoads (jsonDumps l) = some l := by
  cases l with
  | nil => rfl
  | cons s rest =>
    rw [jsonLoads, jsonDumps]
    obtain ⟨t, ht⟩ := encItems_cons_head s.data (rest.map String.data)
    have hmap : encItems ((s :: rest).map String.data)
        = encItems (s.data :: rest.map String.data) := by simp
    have hlen : ((s :: rest).map String.data).length
        ≤ ('[' :: (encItems ((s :: rest).map String.data) ++ [']'])).length + 1 := by
      have := encItems_len (s.data :: rest.map String.data) (by simp)
      simp at *
      omega
    have henc := parseElems_enc (s.data :: rest.map String.data) (by simp)
      (('[' :: (encItems ((s :: rest).map String.data) ++ [']'])).length + 1)
      (by simpa [hmap] using hlen) []
    simp only [hmap, ht] at henc ⊢
    simp only [List.cons_append, List.append_nil] at henc ⊢
    have hsk1 : skipWs ('[' :: '"' :: (t ++ [']'])) = '[' :: '"' :: (t ++ [']']) :=
      skipWs_notWs _ _ rfl
    have hsk2 : skipWs ('"' :: (t ++ [']'])) = '"' :: (t ++ [']']) :=
      skipWs_notWs _ _ rfl
    simp only [hsk1, hsk2, henc]
    simp [stringMk_data, List.map_map, Function.comp]
    refine ⟨rfl, ?_⟩
    have hid : ((fun s => (⟨s⟩ : String)) ∘ String.data) = id := by
      funext x
      exact stringMk_data x
    rw [hid, List.map_id]

/-- Dynamically typed value held by the `links` field, mirroring the three
Python values that reach it: a `set` (the placeholder rows created in
`get_link`), a `list` (the result tuples built in `scrape`) or an already
serialized `str` (what `run_db_inserts` stores). -/
inductive LinksVal where
  | pySet (l : List String)
  | pyList (l : List String)
  | pyStr (s : String)
deriving DecidableEq, Repr

/-- Row of the `pages` table (the ORM class `Page` of `scraper.py`),
keyed by `url`.  The writer stores the UTF-8 encoding of the title; the
bytes are represented by the string itself. -/
structure Page where
  url : String
  source_url : String
  depth : Nat
  title : String
  links : LinksVal
deriving DecidableEq, Repr

/-- The record store: the rows of the `pages` table. -/
abbrev Store := List Page

/-- Point lookup by primary key, as `session.query(Page).filter_by(url=u)`.
Since `url` is the primary key there is at most one matching row, so this
also models `.first()` combined with any ordering. -/
def lookupStore (st : Store) (u : String) : Option Page :=
  List.find? (fun p => p.url == u) st

/-- Upsert a row by primary key: `session.merge` overwrites the row with
the same `url`, `session.add` appends a new one. -/
def upsert (st : Store) (p : Page) : Store :=
  if (lookupStore st p.url).isSome then
    List.map (fun q => if q.url == p.url then p else q) st
  else
    st ++ [p]

/-- Entry of the `db_insert_queue`: the tuple
`(url, driver.current_url, depth, title, links)` built in `scrape`. -/
structure WriteEntry where
  url : String
  source_url : String
  depth : Nat
  title : String
  links : LinksVal
deriving DecidableEq, Repr

/-- Python exceptions the embedding distinguishes: attribute access on an
object lacking that attribute. -/
inductive PyErr where
  | attributeError (attr : String)
deriving DecidableEq, Repr

/-- Rendered page as delivered by the Selenium collaborator: the
post-navigation `driver.current_url`, the `soup.title.string` value if the
document has a titled `<title>` element (`none` models `soup.title` being
`None`), and the raw `href` attributes of the anchors in document order
(an empty string models a falsy/absent `href`). -/
structure PageData where
  current_url : String
  title : Option String
  hrefs : List String

/-- The page fetcher collaborator: `driver.get` either renders a page or
raises (modelled by `none`, the caught navigation failure). -/
def Fetcher := String → Option PageData

/-- Mutable state of one `Scraper` process: the visited-URL set, the
record store, the pending write queue, the log, and additionally a trace
of every fetch issued (`driver.get` call) together with the depth of the
task that issued it. -/
structure SState where
  visited : List String
  store : Store
  dbQueue : List WriteEntry
  fetchLog : List (String × Nat)
  log : List String
deriving DecidableEq

/-- Fresh process state over a given persistent store (the database file
survives across runs, nothing else does). -/
def freshState (store : Store) : SState :=
  ⟨[], store, [], [], []⟩

/-- Model of Python's `str.strip()`: drop leading and trailing
whitespace. -/
def pyStrip (s : String) : String :=
  ⟨((s.data.dropWhile Char.isWhitespace).reverse.dropWhile
    Char.isWhitespace).reverse⟩

/-- Resolution step applied to a raw href inside `get_links`: hrefs
starting with `/`, and hrefs not starting with `http`, are joined onto the
initial URL; all others are passed through unchanged. -/
def resolveHref (initial_url href : String) : String :=
  if strStartsWith href ("/") then urljoin initial_url href
  else if !strStartsWith href ("http") then urljoin initial_url href
  else href

/-- Embedding of `Scraper.get_link`: the per-link domain filter and
check-then-classify step against the record store.  Returns the updated
store and the (at most singleton) list of links accepted for further
traversal. -/
def get_link (store : Store) (maxDepth : Nat) (initial_url current_url href : String) :
    Store × List String :=
  if (urlparse href).netloc = (urlparse initial_url).netloc then
    match lookupStore store href with
    | none =>
      (upsert store ⟨href, current_url, 0, "", LinksVal.pySet []⟩, [href])
    | some page =>
      if page.depth < maxDepth then
        (upsert store { page with depth := page.depth + 1 }, [href])
      else
        (store, [])
  else
    (store, [])

/-- Embedding of `Scraper.get_links`: iterate over the anchors' raw hrefs,
drop falsy ones, resolve the rest and run `get_link` on each, collecting
the accepted links (sequential schedule of the per-link thread pool). -/
def get_links (store : Store) (maxDepth : Nat) (initial_url current_url : String)
    (hrefs : List String) : Store × List String :=
  hrefs.foldl
    (fun acc href =>
      if href ≠ "" then
        let r := resolveHref initial_url href
        let res := get_link acc.1 maxDepth initial_url current_url r
        (res.1, acc.2 ++ res.2)
      else acc)
    (store, [])

/-- Embedding of `Scraper.scrape` under the sequential schedule: depth
guard, visited guard, visited insertion, fetch, title extraction
(`soup.title.string` raises `AttributeError` when the document has no
title), link collection, enqueue of the result tuple, and the recursive
fan-out over accepted links with `depth + 1 ≤ max_depth`.  Exceptions of
child expansions are swallowed by the pool (`concurrent.futures.wait`
never re-raises); the error component reports only an exception of this
call itself.  The `fuel` argument bounds the recursion; `max_depth + 1`
fuel is always sufficient because every recursive call increases `depth`
by one and depths beyond `max_depth` return at the guard. -/
def scrape (f : Fetcher) (initial_url : String) (maxDepth : Nat) :
    Nat → String → Nat → SState → SState × Option PyErr
  | 0, _, _, st => (st, none)
  | fuel + 1, url, depth, st =>
    if maxDepth < depth then (st, none)
    else if url ∈ st.visited then (st, none)
    else
      let st1 : SState := { st with visited := url :: st.visited }
      let st2 : SState := { st1 with fetchLog := st1.fetchLog ++ [(url, depth)] }
      match f url with
      | none =>
        ({ st2 with log := st2.log ++ ["Error scraping " ++ url] }, none)
      | some page =>
        match page.title with
        | none => (st2, some (PyErr.attributeError ("string")))
        | some t =>
          let res := get_links st2.store maxDepth initial_url page.current_url
            page.hrefs
          let links := res.2
          let st3 : SState := { st2 with store := res.1 }
          let st4 : SState := { st3 with
            dbQueue := st3.dbQueue ++
              [⟨url, page.current_url, depth, pyStrip t, LinksVal.pyList links⟩],
            log := st3.log ++ ["Scraped " ++ url] }
          (links.foldl
            (fun s l =>
              if depth + 1 ≤ maxDepth then
                (scrape f initial_url maxDepth fuel l (depth + 1) s).1
              else s)
            st4, none)

/-- Embedding of `Scraper.resume_scraping`.  The method looks up the row
for the initial URL taking greatest recorded depth (the URL is the primary
key, so the row is unique) and returns when that depth reaches
`max_depth`; otherwise it evaluates `self.url_queue.qsize()`.  No
attribute `url_queue` is ever assigned on the class, so that evaluation
raises `AttributeError` before any further state change. -/
def resume_scraping (maxDepth : Nat) (initial_url : String) (st : SState) :
    SState × Option PyErr :=
  match lookupStore st.store initial_url with
  | none =>
    ({ st with log := st.log ++ ["No data found in database for URL: " ++
      initial_url] }, none)
  | some page =>
    if maxDepth ≤ page.depth then
      ({ st with log := st.log ++ ["All data has been scraped for URL: " ++
        initial_url] }, none)
    else
      (st, some (PyErr.attributeError ("url_queue")))

/-- Serialization the writer applies to the `links` value:
`if not isinstance(links, str): links = json.dumps(links, cls=SetEncoder)`,
where `SetEncoder` maps a set to a list of its elements. -/
def serializeLinks : LinksVal → String
  | LinksVal.pyStr s => s
  | LinksVal.pyList l => jsonDumps l
  | LinksVal.pySet l => jsonDumps l

/-- Row constructed by `run_db_inserts` from a dequeued entry before the
merge (title encoded to UTF-8, links serialized). -/
def writerPage (e : WriteEntry) : Page :=
  ⟨e.url, e.source_url, e.depth, e.title, LinksVal.pyStr (serializeLinks e.links)⟩

/-- Embedding of `Scraper.run_db_inserts`: drain the queue (a `none` item
is the shutdown sentinel from `cleanup`), merging each entry's row into
the store; a failing commit (`commit` returning `none` models the caught
storage exception plus rollback) logs the entry and the loop continues. -/
def run_db_inserts (commit : Page → Store → Option Store) :
    List (Option WriteEntry) → Store → List String → Store × List String
  | [], store, log => (store, log)
  | none :: _, store, log => (store, log)
  | some e :: rest, store, log =>
    match commit (writerPage e) store with
    | some store2 => run_db_inserts commit rest store2 log
    | none =>
      run_db_inserts commit rest store
        (log ++ ["Error saving " ++ e.url ++ " to database"])

/-- Never-failing commit: `session.merge` + `session.commit` against a
healthy SQLite store is an upsert by primary key. -/
def goodCommit (p : Page) (st : Store) : Option Store :=
  some (upsert st p)

/-- Traversal phase of `Scraper.start_scraping`: when a row for the
initial URL exists, resume; otherwise scrape from depth 0.  This part runs
synchronously before the database-insert thread is started. -/
def start_traversal (f : Fetcher) (initial_url : String) (maxDepth : Nat)
    (st : SState) : SState × Option PyErr :=
  if (lookupStore st.store initial_url).isSome then
    resume_scraping maxDepth initial_url
      { st with log := st.log ++ ["Resuming scraping from last position for URL: "
        ++ initial_url] }
  else
    scrape f initial_url maxDepth (maxDepth + 1) initial_url 0
      { st with log := st.log ++ ["Start Scraping from " ++ initial_url] }

/-- One full process run (`main`): `start_scraping` runs the traversal to
completion, then starts the insert thread; `cleanup` enqueues the `None`
sentinel; the thread drains every queued entry and exits at the sentinel.
An exception escaping the traversal propagates out of `start_scraping`
before the insert thread is started, so nothing is drained in that case. -/
def mainRun (commit : Page → Store → Option Store) (f : Fetcher)
    (initial_url : String) (maxDepth : Nat) (st : SState) :
    SState × Option PyErr :=
  match start_traversal f initial_url maxDepth st with
  | (st2, some e) => (st2, some e)
  | (st2, none) =>
    let r := run_db_inserts commit (st2.dbQueue.map some ++ [none]) st2.store
      st2.log
    ({ st2 with store := r.1, dbQueue := [], log := r.2 }, none)

/-- Modelled from the spec: section 4.1's words "If href starts with `/`
or lacks a scheme → resolve it relative to the seed URL's origin", with
the origin of the seed and the domain filter of section 4.1.  This
definition follows the specification text, to be compared against the
behaviour of `get_links`/`get_link`. -/
def resolveLinkSpec (seed href : String) : Option String :=
  if href = "" then none
  else
    let origin := (urlparse seed).scheme ++ "://" ++ (urlparse seed).netloc
    let r :=
      if strStartsWith href ("/") ∨ (urlparse href).scheme = "" then
        urljoin origin href
      else href
    if (urlparse r).netloc = (urlparse seed).netloc then some r else none

/-- Pure classifier extracted from the code path
`get_links` (falsy filter + resolution) followed by `get_link`'s domain
filter: the URL a raw href resolves to when accepted, `none` when the href
is dropped or cross-domain. -/
def resolveLink (seed href : String) : Option String :=
  if href = "" then none
  else
    let r := resolveHref seed href
    if (urlparse r).netloc = (urlparse seed).netloc then some r else none

theorem foldl_pres {P : SState → Prop} (step : SState → String → SState)
    (h : ∀ st l, P st → P (step st l)) :
    ∀ (ls : List String) (st : SState), P st → P (ls.foldl step st) := by
  intro ls
  induction ls with
  | nil => intro st hst; exact hst
  | cons l ls ih => intro st hst; exact ih _ (h st l hst)

theorem scrape_fetch_depths (f : Fetcher) (seed : String) (maxD : Nat) :
    ∀ (fuel : Nat) (url : String) (depth : Nat) (st : SState),
      (∀ p ∈ st.fetchLog, p.2 ≤ maxD) →
      ∀ p ∈ (scrape f seed maxD fuel url depth st).1.fetchLog, p.2 ≤ maxD := by
  intro fuel
  induction fuel with
  | zero => intro url depth st h; simpa [scrape] using h
  | succ fuel ih =>
    intro url depth st h
    rw [scrape]
    by_cases h1 : maxD < depth
    · simpa [if_pos h1] using h
    rw [if_neg h1]
    by_cases h2 : url ∈ st.visited
    · simpa [if_pos h2] using h
    rw [if_neg h2]
    have hlog : ∀ p ∈ st.fetchLog ++ [(url, depth)], p.2 ≤ maxD := by
      intro p hp
      rcases List.mem_append.1 hp with hp1 | hp2
      · exact h p hp1
      · rw [List.mem_singleton] at hp2
        subst hp2
        exact Nat.le_of_not_lt h1
    cases hf : f url with
    | none => simpa [hf] using hlog
    | some page =>
      cases ht : page.title with
      | none => simpa [hf, ht] using hlog
      | some t =>
        simp only [hf, ht]
        apply foldl_pres
          (P := fun s => ∀ p ∈ s.fetchLog, p.2 ≤ maxD)
        · intro s l hP
          by_cases hd : depth + 1 ≤ maxD
          · simpa [if_pos hd] using ih l (depth + 1) s hP
          · simpa [if_neg hd] using hP
        · simpa using hlog


/-- Invariant for the visited-once argument: the fetched URLs are distinct
and all recorded as visited. -/
def FetchInv (st : SState) : Prop :=
  (st.fetchLog.map Prod.fst).Nodup ∧
  ∀ u ∈ st.fetchLog.map Prod.fst, u ∈ st.visited

theorem scrape_fetch_inv (f : Fetcher) (seed : String) (maxD : Nat) :
    ∀ (fuel : Nat) (url : String) (depth : Nat) (st : SState),
      FetchInv st → FetchInv (scrape f seed maxD fuel url depth st).1 := by
  intro fuel
  induction fuel with
  | zero => intro url depth st h; simpa [scrape] using h
  | succ fuel ih =>
    intro url depth st h
    rw [scrape]
    by_cases h1 : maxD < depth
    · simpa [if_pos h1] using h
    rw [if_neg h1]
    by_cases h2 : url ∈ st.visited
    · simpa [if_pos h2] using h
    rw [if_neg h2]
    have hnew : FetchInv ⟨url :: st.visited, st.store, st.dbQueue,
        st.fetchLog ++ [(url, depth)], st.log⟩ := by
      constructor
      · rw [List.map_append]
        simp only [List.map_cons, List.map_nil]
        rw [List.nodup_append]
        refine ⟨h.1, List.nodup_singleton url, ?_⟩
        intro a ha hb
        rw [List.mem_singleton] at hb
        subst hb
        exact h2 (h.2 a ha)
      · intro u hu
        rw [List.map_append, List.mem_append] at hu
        rcases hu with hu1 | hu2
        · exact List.mem_cons_of_mem url (h.2 u hu1)
        · simp at hu2
          subst hu2
          exact List.mem_cons_self _ _
    cases hf : f url with
    | none =>
      obtain ⟨v, s, d, fl, lg⟩ := st
      simpa [hf] using hnew
    | some page =>
      cases ht : page.title with
      | none =>
        obtain ⟨v, s, d, fl, lg⟩ := st
        simpa [hf, ht] using hnew
      | some t =>
        simp only [hf, ht]
        apply foldl_pres (P := FetchInv)
        · intro s l hP
          by_cases hd : depth + 1 ≤ maxD
          · simpa [if_pos hd] using ih l (depth + 1) s hP
          · simpa [if_neg hd] using hP
        · obtain ⟨v, s, d, fl, lg⟩ := st
          simpa using hnew


/-- Demonstration site: the seed page links to one same-domain page, one
cross-domain page, and has one falsy href; the child page has no links. -/
def fDemo : Fetcher := fun u =>
  if u = "https://site.test/" then
    some ⟨"https://site.test/", some "Home",
      ["/a", "https://other.example/x", ""]⟩
  else if u = "https://site.test/a" then
    some ⟨"https://site.test/a", some "A", []⟩
  else none

/-- Fetcher returning a page whose document has no title element. -/
def fNoTitle : Fetcher := fun u =>
  if u = "https://site.test/" then some ⟨"https://site.test/", none, []⟩
  else none

/-- C1: an expansion whose depth exceeds `max_depth` returns immediately
with the state unchanged (no fetch, no visited insertion, no store write,
no queue entry), and consequently every fetch of a run is issued by a
task whose depth is at most `max_depth`. -/
theorem scrape_depth_guard (f : Fetcher) (seed url : String)
    (maxD fuel depth : Nat) (st : SState) :
    (maxD < depth → scrape f seed maxD fuel url depth st = (st, none)) ∧
    ((∀ p ∈ st.fetchLog, p.2 ≤ maxD) →
      ∀ p ∈ (scrape f seed maxD fuel url depth st).1.fetchLog, p.2 ≤ maxD) := by
  constructor
  · intro h
    cases fuel with
    | zero => rfl
    | succ fuel => rw [scrape, if_pos h]
  · intro h
    exact scrape_fetch_depths f seed maxD fuel url depth st h

/-- Witness for C1 at a concrete over-depth call. -/
theorem scrape_depth_guard_witness :
    scrape fDemo ("https://site.test/") 0 1 ("https://site.test/") 1
        (freshState []) = (freshState [], none) ∧
    (∀ p ∈ (scrape fDemo ("https://site.test/") 0 1 ("https://site.test/") 1
        (freshState [])).1.fetchLog, p.2 ≤ 0) := by
  refine ⟨(scrape_depth_guard fDemo _ _ 0 1 1 _).1 (by decide),
    (scrape_depth_guard fDemo _ _ 0 1 1 _).2 ?_⟩
  intro p hp
  simp [freshState] at hp

/-- C2: under the sequential (`max_threads = 1`) schedule a URL already in
the visited set is skipped with no state change; the fetched-URLs
invariant (all distinct, all recorded visited) is preserved by every
expansion; and a full run from a fresh state fetches no URL twice. -/
theorem scrape_visited_once (f : Fetcher) (seed url : String)
    (maxD fuel depth : Nat) (st : SState) (s0 : Store) :
    (url ∈ st.visited → scrape f seed maxD fuel url depth st = (st, none)) ∧
    (FetchInv st → FetchInv (scrape f seed maxD fuel url depth st).1) ∧
    (((scrape f seed maxD (maxD + 1) seed 0 (freshState s0)).1.fetchLog.map
      Prod.fst).Nodup) := by
  refine ⟨?_, ?_, ?_⟩
  · intro hmem
    cases fuel with
    | zero => rfl
    | succ fuel =>
      rw [scrape]
      by_cases h1 : maxD < depth
      · rw [if_pos h1]
      · rw [if_neg h1, if_pos hmem]
  · intro hinv
    exact scrape_fetch_inv f seed maxD fuel url depth st hinv
  · have := scrape_fetch_inv f seed maxD (maxD + 1) seed 0 (freshState s0)
      ⟨List.nodup_nil, by intro u hu; simp [freshState] at hu⟩
    exact this.1

/-- Witness for C2 at a concrete state whose visited set holds the URL. -/
theorem scrape_visited_once_witness :
    scrape fDemo ("https://site.test/") 1 2 ("https://site.test/") 0
        ⟨["https://site.test/"], [], [], [], []⟩
      = (⟨["https://site.test/"], [], [], [], []⟩, none) ∧
    FetchInv (scrape fDemo ("https://site.test/") 1 2 ("https://site.test/") 0
      (freshState [])).1 := by
  refine ⟨(scrape_visited_once fDemo _ _ 1 2 0 _ []).1 (by decide),
    (scrape_visited_once fDemo ("https://site.test/") ("https://site.test/")
      1 2 0 (freshState []) []).2.1 ⟨List.nodup_nil, ?_⟩⟩
  intro u hu
  simp [freshState] at hu


/-- C3: for a same-domain candidate link, `get_link` creates a depth-0
placeholder (empty title, empty link set, source = the current page's
resolved URL) and accepts the link when no record exists; increments the
stored depth and accepts when a record exists below `max_depth`; and
rejects when the stored depth is at `max_depth`. -/
theorem get_link_classification (store : Store) (maxD : Nat)
    (seed cur href : String)
    (hdom : (urlparse href).netloc = (urlparse seed).netloc) :
    (lookupStore store href = none →
      get_link store maxD seed cur href
        = (upsert store ⟨href, cur, 0, "", LinksVal.pySet []⟩, [href])) ∧
    (∀ p, lookupStore store href = some p → p.depth < maxD →
      get_link store maxD seed cur href
        = (upsert store { p with depth := p.depth + 1 }, [href])) ∧
    (∀ p, lookupStore store href = some p → p.depth = maxD →
      get_link store maxD seed cur href = (store, [])) := by
  refine ⟨?_, ?_, ?_⟩
  · intro hn
    rw [get_link, if_pos hdom, hn]
  · intro p hs hlt
    rw [get_link, if_pos hdom, hs]
    simp only [if_pos hlt]
  · intro p hs heq
    rw [get_link, if_pos hdom, hs]
    simp [heq]

/-- Witness for C3: the three classifications at concrete stores. -/
theorem get_link_classification_witness :
    get_link [] 1 ("https://site.test/") ("https://site.test/")
        ("https://site.test/a")
      = ([⟨"https://site.test/a", "https://site.test/", 0, "",
          LinksVal.pySet []⟩], ["https://site.test/a"]) ∧
    get_link [⟨"https://site.test/a", "s", 0, "t", LinksVal.pyStr ("x")⟩] 1
        ("https://site.test/") ("https://site.test/") ("https://site.test/a")
      = ([⟨"https://site.test/a", "s", 1, "t", LinksVal.pyStr ("x")⟩],
         ["https://site.test/a"]) ∧
    get_link [⟨"https://site.test/a", "s", 1, "t", LinksVal.pyStr ("x")⟩] 1
        ("https://site.test/") ("https://site.test/") ("https://site.test/a")
      = ([⟨"https://site.test/a", "s", 1, "t", LinksVal.pyStr ("x")⟩], []) := by
  refine ⟨?_, ?_, ?_⟩
  · rw [(get_link_classification [] 1 _ _ _ (by decide)).1 (by decide)]
    decide
  · rw [(get_link_classification _ 1 _ _ _ (by decide)).2.1
      ⟨"https://site.test/a", "s", 0, "t", LinksVal.pyStr ("x")⟩
      (by decide) (by decide)]
    decide
  · rw [(get_link_classification _ 1 _ _ _ (by decide)).2.2
      ⟨"https://site.test/a", "s", 1, "t", LinksVal.pyStr ("x")⟩
      (by decide) (by decide)]


/-- Always-failing commit, modelling a storage layer whose every write
raises. -/
def badCommit : Page → Store → Option Store := fun _ _ => none

/-- C7: the writer loop exits at the sentinel; a dequeued entry has its
links serialized to a JSON list string (sets and lists alike) and is
merged into the store keyed by its URL when the commit succeeds; a failing
commit logs the entry, discards it, and the loop continues. -/
theorem run_db_inserts_loop (commit : Page → Store → Option Store)
    (e : WriteEntry) (rest : List (Option WriteEntry))
    (store store2 : Store) (log : List String) :
    (run_db_inserts commit (none :: rest) store log = (store, log)) ∧
    (∀ l, serializeLinks (LinksVal.pyList l) = jsonDumps l) ∧
    (∀ l, serializeLinks (LinksVal.pySet l) = jsonDumps l) ∧
    (writerPage e = ⟨e.url, e.source_url, e.depth, e.title,
      LinksVal.pyStr (serializeLinks e.links)⟩) ∧
    (commit (writerPage e) store = some store2 →
      run_db_inserts commit (some e :: rest) store log
        = run_db_inserts commit rest store2 log) ∧
    (commit (writerPage e) store = none →
      run_db_inserts commit (some e :: rest) store log
        = run_db_inserts commit rest store
            (log ++ ["Error saving " ++ e.url ++ " to database"])) := by
  refine ⟨rfl, fun _ => rfl, fun _ => rfl, rfl, ?_, ?_⟩
  · intro h
    rw [run_db_inserts, h]
  · intro h
    rw [run_db_inserts, h]

/-- Witness for C7 at a concrete entry, with a succeeding and a failing
commit. -/
theorem run_db_inserts_loop_witness :
    run_db_inserts goodCommit
        [some ⟨"u", "s", 0, "t", LinksVal.pyList ["a"]⟩] [] []
      = run_db_inserts goodCommit []
          [⟨"u", "s", 0, "t", LinksVal.pyStr ("[\"a\"]")⟩] [] ∧
    run_db_inserts badCommit
        [some ⟨"u", "s", 0, "t", LinksVal.pyList ["a"]⟩] [] []
      = run_db_inserts badCommit [] []
          (["Error saving " ++ "u" ++ " to database"]) := by
  constructor
  · rw [(run_db_inserts_loop goodCommit ⟨"u", "s", 0, "t",
      LinksVal.pyList ["a"]⟩ [] [] [⟨"u", "s", 0, "t",
      LinksVal.pyStr ("[\"a\"]")⟩] []).2.2.2.2.1 (by decide)]
  · rw [(run_db_inserts_loop badCommit ⟨"u", "s", 0, "t",
      LinksVal.pyList ["a"]⟩ [] [] [] []).2.2.2.2.2 (by decide)]
    simp

/-- C8: the writer's serialization of a set of link strings (the
set-to-list encoder followed by `json.dumps`) decodes back to the same set
of strings. -/
theorem links_roundtrip (l : List String) :
    ∃ l2, jsonLoads (serializeLinks (LinksVal.pySet l)) = some l2 ∧
      ∀ x, x ∈ l2 ↔ x ∈ l :=
  ⟨l, jsonLoads_jsonDumps l, fun _ => Iff.rfl⟩

/-- C10: an expansion of a page whose rendered document has no title
raises `AttributeError` at title extraction after the fetch: the fetch is
logged, but no failure log line, no queue entry and no terminal state is
reached. -/
theorem missing_title_raises :
    (scrape fNoTitle ("https://site.test/") 1 2 ("https://site.test/") 0
      (freshState [])).2 = some (PyErr.attributeError ("string")) ∧
    (scrape fNoTitle ("https://site.test/") 1 2 ("https://site.test/") 0
      (freshState [])).1.fetchLog = [("https://site.test/", 0)] ∧
    (scrape fNoTitle ("https://site.test/") 1 2 ("https://site.test/") 0
      (freshState [])).1.dbQueue = [] ∧
    (scrape fNoTitle ("https://site.test/") 1 2 ("https://site.test/") 0
      (freshState [])).1.log = [] := by
  decide


/-- C5 (code defect): after a completed crawl of the demonstration site
with `max_depth = 1`, the seed's stored depth is 0 (the writer merge
records the task depth, not the exhausted depth), so re-invoking with the
same seed and `max_depth` does not take the `already complete` branch:
the resume path evaluates the never-assigned attribute `url_queue` and
raises `AttributeError`; no fetch is issued and no completion message is
logged in the second run. -/
theorem resume_after_complete_crash :
    (mainRun goodCommit fDemo ("https://site.test/") 1 (freshState [])).2
      = none ∧
    ((lookupStore (mainRun goodCommit fDemo ("https://site.test/") 1
      (freshState [])).1.store ("https://site.test/")).map Page.depth
      = some 0) ∧
    (mainRun goodCommit fDemo ("https://site.test/") 1
      (freshState (mainRun goodCommit fDemo ("https://site.test/") 1
        (freshState [])).1.store)).2
      = some (PyErr.attributeError ("url_queue")) ∧
    (mainRun goodCommit fDemo ("https://site.test/") 1
      (freshState (mainRun goodCommit fDemo ("https://site.test/") 1
        (freshState [])).1.store)).1.fetchLog = [] ∧
    (mainRun goodCommit fDemo ("https://site.test/") 1
      (freshState (mainRun goodCommit fDemo ("https://site.test/") 1
        (freshState [])).1.store)).1.log
      = ["Resuming scraping from last position for URL: https://site.test/"] := by
  decide

/-- C6 (code defect): with a stored seed record of depth 0 and
`max_depth = 1`, `resume_scraping` raises `AttributeError` on the
never-assigned attribute `url_queue` before inserting anything into the
visited set and before any scheduler call: the state is returned
entirely unchanged alongside the error. -/
theorem resume_incomplete_crash :
    resume_scraping 1 ("https://site.test/")
        (freshState [⟨"https://site.test/", "s", 0, "t",
          LinksVal.pyStr ("[]")⟩])
      = (freshState [⟨"https://site.test/", "s", 0, "t",
          LinksVal.pyStr ("[]")⟩],
         some (PyErr.attributeError ("url_queue"))) := by
  decide

/-- Counterexample to C4 as stated: `"httpx"` lacks a scheme, so the claim
prescribes resolving it against the seed origin to a same-domain URL that
is accepted, but the code (whose resolution step tests `startswith("http")`
instead of scheme presence) leaves it unresolved and rejects it; and for a
seed with a path, a relative href resolves against the seed URL's
directory, not the seed origin as the claim states. -/
theorem resolve_scheme_counterexample :
    (urlparse ("httpx")).scheme = "" ∧
    get_links [] 1 ("https://site.test/") ("https://site.test/") ["httpx"]
      = ([], []) ∧
    resolveLinkSpec ("https://site.test/") ("httpx")
      = some ("https://site.test/httpx") ∧
    (urlparse ("https://site.test/httpx")).netloc
      = (urlparse ("https://site.test/")).netloc ∧
    get_links [] 1 ("https://site.test/dir/page") ("https://site.test/dir/page")
        ["x"]
      = ([⟨"https://site.test/dir/x", "https://site.test/dir/page", 0, "",
          LinksVal.pySet []⟩], ["https://site.test/dir/x"]) ∧
    resolveLinkSpec ("https://site.test/dir/page") ("x")
      = some ("https://site.test/x") := by
  decide

/-- C4 as amended: link handling is the pure classifier `resolveLink` —
an empty href is dropped; an href starting with `/` or not starting with
`http` is resolved against the seed URL by relative-URL resolution, others
pass through; a resolved URL whose netloc differs from the seed's is
rejected; `get_links` includes an accepted fresh link (creating its
placeholder row) and drops rejected ones.  The claim's two concrete
examples hold. -/
theorem get_links_classifier (seed cur href : String) (store : Store)
    (maxD : Nat) :
    (get_links store maxD seed cur [""] = (store, [])) ∧
    (href ≠ "" → resolveLink seed href = none →
      get_links store maxD seed cur [href] = (store, [])) ∧
    (∀ r, href ≠ "" → resolveLink seed href = some r →
      lookupStore store r = none →
      get_links store maxD seed cur [href]
        = (upsert store ⟨r, cur, 0, "", LinksVal.pySet []⟩, [r])) ∧
    ((strStartsWith href ("/") || !strStartsWith href ("http")) = true →
      href ≠ "" → resolveHref seed href = urljoin seed href) ∧
    ((strStartsWith href ("/") || !strStartsWith href ("http")) = false →
      resolveHref seed href = href) ∧
    resolveLink ("https://site.test/") ("/a/b")
      = some ("https://site.test/a/b") ∧
    resolveLink ("https://site.test/") ("https://other.example/x") = none := by
  refine ⟨?_, ?_, ?_, ?_, ?_, by decide, by decide⟩
  · simp [get_links]
  · intro h hnone
    rw [resolveLink, if_neg h] at hnone
    by_cases hd : (urlparse (resolveHref seed href)).netloc
        = (urlparse seed).netloc
    · rw [if_pos hd] at hnone
      exact absurd hnone (by simp)
    · simp only [get_links, List.foldl]
      rw [if_pos h, get_link, if_neg hd]
      simp
  · intro r h hsome hlook
    rw [resolveLink, if_neg h] at hsome
    by_cases hd : (urlparse (resolveHref seed href)).netloc
        = (urlparse seed).netloc
    · rw [if_pos hd] at hsome
      have hr : resolveHref seed href = r := by
        simpa using hsome
      simp only [get_links, List.foldl]
      rw [if_pos h, hr, get_link, if_pos (hr ▸ hd), hlook]
      simp
    · rw [if_neg hd] at hsome
      exact absurd hsome (by simp)
  · intro hb _
    rw [resolveHref]
    rcases Bool.or_eq_true_iff.1 hb with h1 | h1
    · rw [if_pos h1]
    · by_cases h2 : strStartsWith href ("/")
      · rw [if_pos h2]
      · rw [if_neg h2, if_pos h1]
  · intro hb
    have h1 : strStartsWith href ("/") = false := by
      rcases Bool.or_eq_false_iff.1 hb with ⟨x, _⟩
      exact x
    have h2 : (!strStartsWith href ("http")) = false := by
      rcases Bool.or_eq_false_iff.1 hb with ⟨_, x⟩
      exact x
    rw [resolveHref, if_neg (by simp [h1]), if_neg (by simp [h2])]


/-- Witness for the amended C4 at the claim's concrete inputs. -/
theorem get_links_classifier_witness :
    get_links [] 1 ("https://site.test/") ("https://site.test/") [""]
      = ([], []) ∧
    get_links [] 1 ("https://site.test/") ("https://site.test/")
      ["https://other.example/x"] = ([], []) ∧
    get_links [] 1 ("https://site.test/") ("https://site.test/") ["/a/b"]
      = ([⟨"https://site.test/a/b", "https://site.test/", 0, "",
          LinksVal.pySet []⟩], ["https://site.test/a/b"]) := by
  refine ⟨(get_links_classifier ("https://site.test/") ("https://site.test/")
      ("x") [] 1).1,
    (get_links_classifier ("https://site.test/") ("https://site.test/")
      ("https://other.example/x") [] 1).2.1 (by decide) (by decide),
    (get_links_classifier ("https://site.test/") ("https://site.test/")
      ("/a/b") [] 1).2.2.1 ("https://site.test/a/b") (by decide) (by decide)
      (by decide)⟩


theorem foldl_queue_indep (step : SState → String → SState)
    (hstep : ∀ (s : SState) (l : String) (q : List WriteEntry),
      step { s with dbQueue := q } l
        = { step { s with dbQueue := [] } l with
            dbQueue := q ++ (step { s with dbQueue := [] } l).dbQueue }) :
    ∀ (ls : List String) (s : SState) (q : List WriteEntry),
      ls.foldl step { s with dbQueue := q }
        = { ls.foldl step { s with dbQueue := [] } with
            dbQueue := q ++ (ls.foldl step { s with dbQueue := [] }).dbQueue } := by
  intro ls
  induction ls with
  | nil =>
    intro s q
    obtain ⟨v, st, d, fl, lg⟩ := s
    simp
  | cons l ls ih =>
    intro s q
    rw [List.foldl_cons, List.foldl_cons]
    rw [hstep s l q]
    rw [ih (step { s with dbQueue := [] } l)
      (q ++ (step { s with dbQueue := [] } l).dbQueue)]
    have heta : step { s with dbQueue := [] } l
        = { step { s with dbQueue := [] } l with
            dbQueue := (step { s with dbQueue := [] } l).dbQueue } := rfl
    nth_rewrite 4 [heta]
    rw [ih (step { s with dbQueue := [] } l)
      ((step { s with dbQueue := [] } l).dbQueue)]
    simp


theorem scrape_queue_indep (f : Fetcher) (seed : String) (maxD : Nat) :
    ∀ (fuel : Nat) (url : String) (depth : Nat) (st : SState)
      (q : List WriteEntry),
      scrape f seed maxD fuel url depth { st with dbQueue := q }
        = ({ (scrape f seed maxD fuel url depth
              { st with dbQueue := [] }).1 with
             dbQueue := q ++ (scrape f seed maxD fuel url depth
              { st with dbQueue := [] }).1.dbQueue },
           (scrape f seed maxD fuel url depth { st with dbQueue := [] }).2) := by
  intro fuel
  induction fuel with
  | zero =>
    intro url depth st q
    obtain ⟨v, s, d, fl, lg⟩ := st
    simp [scrape]
  | succ fuel ih =>
    intro url depth st q
    obtain ⟨v, s, d, fl, lg⟩ := st
    rw [scrape, scrape]
    by_cases h1 : maxD < depth
    · simp [if_pos h1]
    rw [if_neg h1, if_neg h1]
    by_cases h2 : url ∈ v
    · simp [if_pos h2]
    rw [if_neg h2, if_neg h2]
    cases hf : f url with
    | none => simp [hf]
    | some page =>
      cases ht : page.title with
      | none => simp [hf, ht]
      | some t =>
        simp only [hf, ht]
        have hfold := foldl_queue_indep
          (fun s2 l =>
            if depth + 1 ≤ maxD then
              (scrape f seed maxD fuel l (depth + 1) s2).1
            else s2)
          (by
            intro s2 l q2
            by_cases hd : depth + 1 ≤ maxD
            · simp only [if_pos hd]
              rw [ih l (depth + 1) s2 q2]
            · simp only [if_neg hd]
              obtain ⟨v2, s3, d2, fl2, lg2⟩ := s2
              simp)
        have e1 := hfold
          (get_links s maxD seed page.current_url page.hrefs).2
          ⟨url :: v, (get_links s maxD seed page.current_url page.hrefs).1,
            [], fl ++ [(url, depth)], lg ++ ["Scraped " ++ url]⟩
          (q ++ [⟨url, page.current_url, depth, pyStrip t,
            LinksVal.pyList (get_links s maxD seed page.current_url
              page.hrefs).2⟩])
        have e2 := hfold
          (get_links s maxD seed page.current_url page.hrefs).2
          ⟨url :: v, (get_links s maxD seed page.current_url page.hrefs).1,
            [], fl ++ [(url, depth)], lg ++ ["Scraped " ++ url]⟩
          ([⟨url, page.current_url, depth, pyStrip t,
            LinksVal.pyList (get_links s maxD seed page.current_url
              page.hrefs).2⟩])
        simp only [List.nil_append] at e1 e2 ⊢
        rw [e1, e2]
        simp


/-- One writer iteration as a fold step over (store, log). -/
def writeStep (commit : Page → Store → Option Store)
    (acc : Store × List String) (e : WriteEntry) : Store × List String :=
  match commit (writerPage e) acc.1 with
  | some s2 => (s2, acc.2)
  | none => (acc.1, acc.2 ++ ["Error saving " ++ e.url ++ " to database"])

theorem run_db_inserts_drain (commit : Page → Store → Option Store) :
    ∀ (q : List WriteEntry) (store : Store) (log : List String),
      run_db_inserts commit (q.map some ++ [none]) store log
        = q.foldl (writeStep commit) (store, log) := by
  intro q
  induction q with
  | nil => intro store log; rfl
  | cons e q ih =>
    intro store log
    rw [List.map_cons, List.cons_append, List.foldl_cons, run_db_inserts]
    cases hc : commit (writerPage e) store with
    | some s2 =>
      have hws : writeStep commit (store, log) e = (s2, log) := by
        simp [writeStep, hc]
      rw [hws]
      exact ih s2 log
    | none =>
      have hws : writeStep commit (store, log) e
          = (store, log ++ ["Error saving " ++ e.url ++ " to database"]) := by
        simp [writeStep, hc]
      rw [hws]
      exact ih store (log ++ ["Error saving " ++ e.url ++ " to database"])


/-- C9: the traversal is queue-independent and append-only on the write
queue (so no queued record influences the store while expansion runs);
`main` sequences the writer drain strictly after a traversal that returned
without an exception; and the drain with the sentinel last processes every
queued entry exactly once, as a left fold of single-entry commits. -/
theorem writer_after_traversal (commit : Page → Store → Option Store)
    (f : Fetcher) (seed url : String) (maxD fuel depth : Nat)
    (st st2 : SState) (q queue : List WriteEntry) (store : Store)
    (log : List String) :
    (scrape f seed maxD fuel url depth { st with dbQueue := q }
      = ({ (scrape f seed maxD fuel url depth
            { st with dbQueue := [] }).1 with
           dbQueue := q ++ (scrape f seed maxD fuel url depth
            { st with dbQueue := [] }).1.dbQueue },
         (scrape f seed maxD fuel url depth { st with dbQueue := [] }).2)) ∧
    (run_db_inserts commit (queue.map some ++ [none]) store log
      = queue.foldl (writeStep commit) (store, log)) ∧
    (start_traversal f seed maxD st = (st2, none) →
      mainRun commit f seed maxD st
        = ({ st2 with
             store := (run_db_inserts commit
               (st2.dbQueue.map some ++ [none]) st2.store st2.log).1,
             dbQueue := [],
             log := (run_db_inserts commit
               (st2.dbQueue.map some ++ [none]) st2.store st2.log).2 },
           none)) := by
  refine ⟨scrape_queue_indep f seed maxD fuel url depth st q,
    run_db_inserts_drain commit queue store log, ?_⟩
  intro htrav
  rw [mainRun, htrav]

/-- Witness for C9 at the demonstration crawl. -/
theorem writer_after_traversal_witness :
    mainRun goodCommit fDemo ("https://site.test/") 1 (freshState [])
      = ({ (start_traversal fDemo ("https://site.test/") 1
            (freshState [])).1 with
           store := (run_db_inserts goodCommit
             ((start_traversal fDemo ("https://site.test/") 1
               (freshState [])).1.dbQueue.map some ++ [none])
             (start_traversal fDemo ("https://site.test/") 1
               (freshState [])).1.store
             (start_traversal fDemo ("https://site.test/") 1
               (freshState [])).1.log).1,
           dbQueue := [],
           log := (run_db_inserts goodCommit
             ((start_traversal fDemo ("https://site.test/") 1
               (freshState [])).1.dbQueue.map some ++ [none])
             (start_traversal fDemo ("https://site.test/") 1
               (freshState [])).1.store
             (start_traversal fDemo ("https://site.test/") 1
               (freshState [])).1.log).2 },
         none) :=
  (writer_after_traversal goodCommit fDemo ("https://site.test/")
    ("https://site.test/") 1 0 0 (freshState [])
    (start_traversal fDemo ("https://site.test/") 1 (freshState [])).1
    [] [] [] []).2.2 (by decide)

end WebScraper
